import Mathlib

/-!
Verification of the Enrollment & Class-Lifecycle Consistency Engine of the
School-Management-System repository.

The definitions below are a shallow embedding of the route handlers in
`src/routes/student.py` (enroll_course, cancel_enrollment),
`src/routes/manager.py` (update_student_grade, assign_teacher),
`src/routes/helpers.py` (validate_class_timing_constraints) and the data
model of `src/models.py`.  Database tables are lists of records, dates are
day numbers (Int), times of day are minutes (Nat), scores are rationals,
and every operation is a pure function from the database (plus the request
payload and the current-time context) to either an error code or the
committed database.  Python `except Exception` handlers that roll the
transaction back are modelled by returning the corresponding generic error
code and leaving the database unchanged.
-/

namespace SchoolMS

/- Values of the `ClassStatus` enum of models.py. -/
namespace ClassStatus

def OPEN : String := "Mở đăng ký"

def IN_PROGRESS : String := "Đang học"

def COMPLETED : String := "Hoàn thành"

end ClassStatus

/- Values of the `EnrollmentStatus` enum of models.py.  Note the member
names: the completed member is spelled `COMPLETE`; there is no member
named `COMPLETED`. -/
namespace EnrollmentStatus

def REGISTERED : String := "Đã đăng ký"

def CANCELLED : String := "Đã hủy"

def COMPLETE : String := "Đã hoàn thành"

def Failed : String := "Rớt môn"

/-- Python attribute access on the `EnrollmentStatus` enum class: only the
four member names defined in models.py resolve to a value; any other
attribute name raises `AttributeError`, modelled as `none`.  In particular
`attr "COMPLETED" = none`, which is what `update_student_grade` in
routes/manager.py evaluates (`EnrollmentStatus.COMPLETED.value`). -/
def attr : String → Option String
  | "REGISTERED" => some REGISTERED
  | "CANCELLED" => some CANCELLED
  | "COMPLETE" => some COMPLETE
  | "Failed" => some Failed
  | _ => none

end EnrollmentStatus

/-- A row of the `department` table. -/
structure DepartmentRec where
  department_id : Nat
  department_name : String
deriving DecidableEq

/-- A row of the `courses` table (the fields the engine reads). -/
structure CourseRec where
  course_id : Nat
  department_id : Option Nat
deriving DecidableEq

/-- The student profile attached to the authenticated user
(`current_user.student`); the engine reads its id and department. -/
structure StudentRec where
  student_id : Nat
  department_id : Option Nat
deriving DecidableEq

/-- A row of the `teachers` table (the fields the engine reads). -/
structure TeacherRec where
  teacher_id : Nat
  department_id : Option Nat
deriving DecidableEq

/-- A row of the `classes` table.  `status` is the raw string column, as in
models.py.  Dates are day numbers. -/
structure ClassRec where
  class_id : Nat
  course_id : Nat
  teacher_id : Option Nat
  semester : String
  academic_year : String
  max_capacity : Int
  current_enrollment : Int
  status : String
  start_date : Int
  end_date : Int
deriving DecidableEq

/-- A row of the `schedules` table; times of day in minutes. -/
structure ScheduleRec where
  schedule_id : Nat
  class_id : Nat
  day_of_week : String
  start_time : Nat
  end_time : Nat
deriving DecidableEq

/-- A row of the `enrollments` table.  `status` is the raw string column.
`enrollment_date` and `cancellation_date` are timestamps. -/
structure EnrollmentRec where
  enrollment_id : Nat
  student_id : Nat
  class_id : Nat
  enrollment_date : Int
  grade : Option String
  status : String
  cancellation_date : Option Int
  score : Option Rat
deriving DecidableEq

/-- The persistent store.  `next_enrollment_id` models the autoincrement
primary key of the enrollments table. -/
structure DB where
  departments : List DepartmentRec
  courses : List CourseRec
  teachers : List TeacherRec
  classes : List ClassRec
  schedules : List ScheduleRec
  enrollments : List EnrollmentRec
  next_enrollment_id : Nat
deriving DecidableEq

/-- The request-time context: `datetime.utcnow().date()` as a day number,
`datetime.utcnow()` as a timestamp, and the computed current academic
period (get_current_semester / get_current_academic_year of helpers.py,
which depend only on the wall clock). -/
structure Ctx where
  current_date : Int
  now : Int
  current_semester : String
  current_academic_year : String
deriving DecidableEq

/-- The machine-readable error codes returned by `error_response` calls in
the four handlers under study. -/
inductive ApiError where
  | MISSING_CLASS_ID
  | MISSING_REQUIRED_FIELDS
  | STUDENT_NOT_FOUND
  | CLASS_NOT_FOUND
  | CLASS_NOT_OPEN
  | CLASS_FULL
  | REGISTRATION_CLOSED
  | CLASS_ENDED
  | WRONG_SEMESTER
  | STUDENT_NO_DEPARTMENT
  | COURSE_NO_DEPARTMENT
  | DEPARTMENT_MISMATCH (first_department second_department : String)
  | ALREADY_ENROLLED
  | COURSE_COMPLETED
  | CANCELLATION_NOT_ALLOWED
  | NOT_ENROLLED
  | CANCELLATION_PERIOD_EXPIRED
  | GRADE_ASSIGNED
  | WRONG_ACADEMIC_PERIOD
  | ENROLLMENT_NOT_FOUND
  | INVALID_SCORE
  | UPDATE_GRADE_FAILED
  | ENROLL_FAILED
  | ASSIGN_TEACHER_FAILED
  | TEACHER_NOT_FOUND
  | TEACHER_NO_DEPARTMENT
  | SCHEDULE_CONFLICT (conflicting_class_id : Nat)
deriving DecidableEq

/-- Python truthiness test `not data.get(field)` for an optional integer
field of the JSON payload: missing, null and 0 are all falsy. -/
def falsyNat : Option Nat → Bool
  | none => true
  | some n => n == 0

/-- Python truthiness test `not data.get(field)` for an optional numeric
field of the JSON payload: missing, null and 0 (or 0.0) are all falsy. -/
def falsyRat : Option Rat → Bool
  | none => true
  | some q => decide (q = 0)

/-- Mutating the single ORM object returned by `.first()`: replace the
first element satisfying `p` by its image under `f`, leaving everything
else in place. -/
def updateFirst (p : α → Bool) (f : α → α) : List α → List α
  | [] => []
  | x :: xs => if p x then f x :: xs else x :: updateFirst p f xs

def DB.findClass (db : DB) (cid : Nat) : Option ClassRec :=
  db.classes.find? (fun c => c.class_id == cid)

def DB.findCourse (db : DB) (coid : Nat) : Option CourseRec :=
  db.courses.find? (fun c => c.course_id == coid)

def DB.findTeacher (db : DB) (tid : Nat) : Option TeacherRec :=
  db.teachers.find? (fun t => t.teacher_id == tid)

def DB.findEnrollmentById (db : DB) (eid : Nat) : Option EnrollmentRec :=
  db.enrollments.find? (fun e => e.enrollment_id == eid)

/-- The filter used for the pair lookup
`Enrollment.query.filter_by(student_id=..., class_id=...)`. -/
def pairPred (sid cid : Nat) : EnrollmentRec → Bool :=
  fun e => e.student_id == sid && e.class_id == cid

def DB.findEnrollmentPair (db : DB) (sid cid : Nat) : Option EnrollmentRec :=
  db.enrollments.find? (pairPred sid cid)

/-- Department-name lookup used when building the DEPARTMENT_MISMATCH
details; a missing department renders as the literal fallback string. -/
def DB.departmentName (db : DB) (did : Nat) : String :=
  match db.departments.find? (fun d => d.department_id == did) with
  | some d => d.department_name
  | none => "Không xác định"

/-- validate_class_timing_constraints of routes/helpers.py, instantiated
for the student caller (`UserType.STUDENT`), which is how enroll_course
invokes it: a class that already started is REGISTRATION_CLOSED, one that
already ended is CLASS_ENDED, and one outside the computed current
academic period is WRONG_SEMESTER; otherwise the check passes. -/
def validate_class_timing_constraints (ctx : Ctx) (cls : ClassRec) : Option ApiError :=
  if cls.start_date < ctx.current_date then some .REGISTRATION_CLOSED
  else if cls.end_date < ctx.current_date then some .CLASS_ENDED
  else if cls.semester != ctx.current_semester || cls.academic_year != ctx.current_academic_year then
    some .WRONG_SEMESTER
  else none

/-- The re-registration update applied to a previously cancelled row by
enroll_course: status back to Registered, enrollment_date reset to now,
cancellation_date cleared. -/
def reenrollRow (ctx : Ctx) (e : EnrollmentRec) : EnrollmentRec :=
  { e with status := EnrollmentStatus.REGISTERED, enrollment_date := ctx.now,
           cancellation_date := none }

/-- The freshly inserted enrollment row of enroll_course.  The handler
sets status and enrollment_date; `cancellation_date` is filled by the
column default `datetime.utcnow` declared in models.py (the handler does
not pass it). -/
def newEnrollmentRow (ctx : Ctx) (db : DB) (sid cid : Nat) : EnrollmentRec :=
  { enrollment_id := db.next_enrollment_id, student_id := sid, class_id := cid,
    enrollment_date := ctx.now, grade := none,
    status := EnrollmentStatus.REGISTERED, cancellation_date := some ctx.now,
    score := none }

/-- The counter bump `class_obj.current_enrollment += 1` committed by
enroll_course. -/
def bumpClassCounter (cid : Nat) : List ClassRec → List ClassRec :=
  updateFirst (fun c => c.class_id == cid)
    (fun c => { c with current_enrollment := c.current_enrollment + 1 })

/-- enroll_course of routes/student.py (lines 58-173).  The checks occur
in source order: missing payload, missing student profile, class lookup,
class status, capacity, timing constraints, student department, course
department, department match, then the existing-enrollment switch; on
success the row change and the counter bump are committed together.
A class whose course row is absent would raise AttributeError at the
`class_obj.course.department_id` access, caught by the handler as the
generic ENROLL_FAILED rollback. -/
def enroll_course (ctx : Ctx) (db : DB) (class_id : Option Nat)
    (student : Option StudentRec) : Except ApiError DB :=
  if falsyNat class_id then .error .MISSING_CLASS_ID
  else
    match student with
    | none => .error .STUDENT_NOT_FOUND
    | some s =>
      match class_id with
      | none => .error .MISSING_CLASS_ID
      | some cid =>
        match db.findClass cid with
        | none => .error .CLASS_NOT_FOUND
        | some cls =>
          if cls.status != ClassStatus.OPEN then .error .CLASS_NOT_OPEN
          else if cls.current_enrollment ≥ cls.max_capacity then .error .CLASS_FULL
          else
            match validate_class_timing_constraints ctx cls with
            | some err => .error err
            | none =>
              match s.department_id with
              | none => .error .STUDENT_NO_DEPARTMENT
              | some sdept =>
                match db.findCourse cls.course_id with
                | none => .error .ENROLL_FAILED
                | some course =>
                  match course.department_id with
                  | none => .error .COURSE_NO_DEPARTMENT
                  | some cdept =>
                    if sdept != cdept then
                      .error (.DEPARTMENT_MISMATCH (db.departmentName sdept)
                                                   (db.departmentName cdept))
                    else
                      match db.findEnrollmentPair s.student_id cid with
                      | some e =>
                        if e.status == EnrollmentStatus.REGISTERED then
                          .error .ALREADY_ENROLLED
                        else if e.status == EnrollmentStatus.COMPLETE
                             || e.status == EnrollmentStatus.Failed then
                          .error .COURSE_COMPLETED
                        else
                          .ok { db with
                                classes := bumpClassCounter cid db.classes,
                                enrollments :=
                                  updateFirst (pairPred s.student_id cid)
                                    (reenrollRow ctx) db.enrollments }
                      | none =>
                        .ok { db with
                              classes := bumpClassCounter cid db.classes,
                              enrollments :=
                                db.enrollments ++ [newEnrollmentRow ctx db s.student_id cid],
                              next_enrollment_id := db.next_enrollment_id + 1 }

/-- The filter used by cancel_enrollment to find the row to cancel:
the pair plus status Registered. -/
def cancelPred (sid cid : Nat) : EnrollmentRec → Bool :=
  fun e => e.student_id == sid && e.class_id == cid
        && e.status == EnrollmentStatus.REGISTERED

/-- cancel_enrollment of routes/student.py (lines 175-284), in source
order: missing payload, missing student profile, class lookup, class
status gate (Open or InProgress only), Registered-row lookup, the 14-day
window after start_date, the grade/score guard, the academic-period
guard; on success the row flips to Cancelled with a stamped
cancellation_date and the counter is decremented, floored at 0, in the
same commit. -/
def cancel_enrollment (ctx : Ctx) (db : DB) (class_id : Option Nat)
    (student : Option StudentRec) : Except ApiError DB :=
  if falsyNat class_id then .error .MISSING_CLASS_ID
  else
    match student with
    | none => .error .STUDENT_NOT_FOUND
    | some s =>
      match class_id with
      | none => .error .MISSING_CLASS_ID
      | some cid =>
        match db.findClass cid with
        | none => .error .CLASS_NOT_FOUND
        | some cls =>
          if cls.status != ClassStatus.OPEN && cls.status != ClassStatus.IN_PROGRESS then
            .error .CANCELLATION_NOT_ALLOWED
          else
            match db.enrollments.find? (cancelPred s.student_id cid) with
            | none => .error .NOT_ENROLLED
            | some e =>
              if cls.start_date ≤ ctx.current_date
                 && ctx.current_date - cls.start_date > 14 then
                .error .CANCELLATION_PERIOD_EXPIRED
              else if e.grade.isSome || e.score.isSome then
                .error .GRADE_ASSIGNED
              else if cls.semester != ctx.current_semester
                   || cls.academic_year != ctx.current_academic_year then
                .error .WRONG_ACADEMIC_PERIOD
              else
                .ok { db with
                      enrollments :=
                        updateFirst (cancelPred s.student_id cid)
                          (fun e2 => { e2 with status := EnrollmentStatus.CANCELLED,
                                               cancellation_date := some ctx.now })
                          db.enrollments,
                      classes :=
                        updateFirst (fun c => c.class_id == cid)
                          (fun c =>
                            { c with current_enrollment := max 0 (c.current_enrollment - 1) })
                          db.classes }

/-- The success payload of update_student_grade: the score, letter grade
and new status echoed to the caller. -/
structure GradeResult where
  score : Rat
  grade : String
  status : String
deriving DecidableEq

/-- update_student_grade of routes/manager.py (lines 679-754), the
grade-management endpoint.  The required-fields test uses Python
truthiness, so a score of 0 counts as missing.  The score-to-grade
conversion reads `EnrollmentStatus.COMPLETED.value` in all four passing
branches; models.py defines no member named COMPLETED (the member is
COMPLETE), so those branches raise AttributeError, which the handler's
broad except turns into the UPDATE_GRADE_FAILED rollback.  No check of
the enrollment's current status is performed.  The decimal thresholds
8.5 and 5.5 are written `mkRat 17 2` and `mkRat 11 2`. -/
def update_student_grade (db : DB) (enrollment_id : Option Nat)
    (score : Option Rat) : Except ApiError (DB × GradeResult) :=
  if falsyNat enrollment_id || falsyRat score then .error .MISSING_REQUIRED_FIELDS
  else
    match enrollment_id, score with
    | some eid, some sc =>
      match db.findEnrollmentById eid with
      | none => .error .ENROLLMENT_NOT_FOUND
      | some _ =>
        if sc < 0 || sc > 10 then .error .INVALID_SCORE
        else
          let conv : String × String :=
            if sc ≥ mkRat 17 2 then ("A", "COMPLETED")
            else if sc ≥ (7 : Rat) then ("B", "COMPLETED")
            else if sc ≥ mkRat 11 2 then ("C", "COMPLETED")
            else if sc ≥ (4 : Rat) then ("D", "COMPLETED")
            else ("F", "Failed")
          match EnrollmentStatus.attr conv.2 with
          | none => .error .UPDATE_GRADE_FAILED
          | some st =>
            .ok ({ db with
                   enrollments :=
                     updateFirst (fun e => e.enrollment_id == eid)
                       (fun e => { e with score := some sc, grade := some conv.1,
                                          status := st })
                       db.enrollments },
                 { score := sc, grade := conv.1, status := st })
    | _, _ => .error .MISSING_REQUIRED_FIELDS

/-- The schedules belonging to one class. -/
def DB.schedulesOf (db : DB) (cid : Nat) : List ScheduleRec :=
  db.schedules.filter (fun s => s.class_id == cid)

/-- The half-open interval overlap test of assign_teacher: same day of
week, the new block starts before the existing one ends and ends after
the existing one starts. -/
def overlapsSched (ns es : ScheduleRec) : Bool :=
  ns.day_of_week == es.day_of_week
    && decide (ns.start_time < es.end_time)
    && decide (ns.end_time > es.start_time)

/-- The conflict scan of assign_teacher (routes/manager.py lines 274-301):
iterate over the teacher's other classes of the same semester and
academic year and return the first one owning a schedule that overlaps a
schedule of the target class.  (The source query inner-joins Schedule,
which only drops classes that have no schedule at all; such classes can
produce no overlap, so the scan's outcome is unchanged.) -/
def findScheduleConflict (db : DB) (cls : ClassRec) (tid : Nat) : Option Nat :=
  (db.classes.filter (fun c =>
      c.teacher_id == some tid && c.semester == cls.semester
        && c.academic_year == cls.academic_year
        && c.class_id != cls.class_id)).findSome?
    (fun c =>
      if (db.schedulesOf cls.class_id).any
           (fun ns => (db.schedulesOf c.class_id).any (fun es => overlapsSched ns es))
      then some c.class_id else none)

/-- assign_teacher of routes/manager.py (lines 221-328), in source order:
missing payload, class lookup, teacher lookup, teacher department set,
course department set, department match, the schedule-conflict scan, and
on success the assignment `class_obj.teacher_id = data['teacher_id']`.
A class whose course row is absent would raise AttributeError at the
`class_obj.course.department_id` access, caught by the handler as the
generic ASSIGN_TEACHER_FAILED rollback. -/
def assign_teacher (db : DB) (class_id teacher_id : Option Nat) : Except ApiError DB :=
  if falsyNat class_id || falsyNat teacher_id then .error .MISSING_REQUIRED_FIELDS
  else
    match class_id, teacher_id with
    | some cid, some tid =>
      match db.findClass cid with
      | none => .error .CLASS_NOT_FOUND
      | some cls =>
        match db.findTeacher tid with
        | none => .error .TEACHER_NOT_FOUND
        | some t =>
          match t.department_id with
          | none => .error .TEACHER_NO_DEPARTMENT
          | some tdept =>
            match db.findCourse cls.course_id with
            | none => .error .ASSIGN_TEACHER_FAILED
            | some course =>
              match course.department_id with
              | none => .error .COURSE_NO_DEPARTMENT
              | some cdept =>
                if tdept != cdept then
                  .error (.DEPARTMENT_MISMATCH (db.departmentName tdept)
                                               (db.departmentName cdept))
                else
                  match findScheduleConflict db cls tid with
                  | some ccid => .error (.SCHEDULE_CONFLICT ccid)
                  | none =>
                    .ok { db with
                          classes :=
                            updateFirst (fun c => c.class_id == cid)
                              (fun c => { c with teacher_id := some tid })
                              db.classes }
    | _, _ => .error .MISSING_REQUIRED_FIELDS

/-! Basic lemmas about `updateFirst`, the model of mutating the single
row returned by a `.first()` query. -/

theorem updateFirst_nil (p : α → Bool) (f : α → α) : updateFirst p f [] = [] := rfl

theorem updateFirst_cons_pos (p : α → Bool) (f : α → α) (a : α) (l : List α)
    (h : p a = true) : updateFirst p f (a :: l) = f a :: l := by
  simp [updateFirst, h]

theorem updateFirst_cons_neg (p : α → Bool) (f : α → α) (a : α) (l : List α)
    (h : p a = false) : updateFirst p f (a :: l) = a :: updateFirst p f l := by
  simp [updateFirst, h]

theorem length_updateFirst (p : α → Bool) (f : α → α) (l : List α) :
    (updateFirst p f l).length = l.length := by
  induction l with
  | nil => rfl
  | cons a l ih =>
    by_cases h : p a = true
    · simp [updateFirst_cons_pos p f a l h]
    · simp [updateFirst_cons_neg p f a l (by simpa using h), ih]

/-- Replacing the first `p`-element `x` by `f x` changes any `countP q`
by exactly the difference between the `q`-status of `x` and of `f x`. -/
theorem countP_updateFirst (p q : α → Bool) (f : α → α) (l : List α) (x : α)
    (hfind : l.find? p = some x) :
    (updateFirst p f l).countP q + (if q x then 1 else 0)
      = l.countP q + (if q (f x) then 1 else 0) := by
  induction l with
  | nil => simp at hfind
  | cons a l ih =>
    by_cases h : p a = true
    · rw [List.find?_cons_of_pos _ h] at hfind
      have hax := Option.some.inj hfind
      subst hax
      rw [updateFirst_cons_pos p f a l h]
      simp only [List.countP_cons]
      omega
    · have h' : p a = false := by simpa using h
      rw [List.find?_cons_of_neg _ (by simp [h'])] at hfind
      rw [updateFirst_cons_neg p f a l h']
      simp only [List.countP_cons]
      have := ih hfind
      omega

/-- If the image of the found element still satisfies `p`, it is what a
repeated `find?` returns after the update. -/
theorem find?_updateFirst_self (p : α → Bool) (f : α → α) (l : List α) (x : α)
    (hfind : l.find? p = some x) (hfx : p (f x) = true) :
    (updateFirst p f l).find? p = some (f x) := by
  induction l with
  | nil => simp at hfind
  | cons a l ih =>
    by_cases h : p a = true
    · rw [List.find?_cons_of_pos _ h] at hfind
      have hax := Option.some.inj hfind
      subst hax
      rw [updateFirst_cons_pos p f a l h]
      exact List.find?_cons_of_pos _ hfx
    · have h' : p a = false := by simpa using h
      rw [List.find?_cons_of_neg _ (by simp [h'])] at hfind
      rw [updateFirst_cons_neg p f a l h']
      rw [List.find?_cons_of_neg _ (by simp [h'])]
      exact ih hfind

/-- Members of the updated list are old members or the image of the
element that `find?` located. -/
theorem mem_updateFirst (p : α → Bool) (f : α → α) (l : List α) (y : α)
    (hy : y ∈ updateFirst p f l) :
    y ∈ l ∨ ∃ x, l.find? p = some x ∧ y = f x := by
  induction l with
  | nil => simp [updateFirst] at hy
  | cons a l ih =>
    by_cases h : p a = true
    · rw [updateFirst_cons_pos p f a l h] at hy
      rcases List.mem_cons.mp hy with h1 | h1
      · exact Or.inr ⟨a, List.find?_cons_of_pos _ h, h1⟩
      · exact Or.inl (List.mem_cons_of_mem a h1)
    · have h' : p a = false := by simpa using h
      rw [updateFirst_cons_neg p f a l h'] at hy
      rcases List.mem_cons.mp hy with h1 | h1
      · exact Or.inl (h1 ▸ List.mem_cons_self a l)
      · rcases ih h1 with h2 | ⟨x, hx1, hx2⟩
        · exact Or.inl (List.mem_cons_of_mem a h2)
        · exact Or.inr ⟨x, by rw [List.find?_cons_of_neg _ (by simp [h'])]; exact hx1, hx2⟩

/-- A member that fails `p` is untouched by the update. -/
theorem mem_updateFirst_of_neg (p : α → Bool) (f : α → α) (l : List α) (y : α)
    (hy : y ∈ l) (hp : p y = false) : y ∈ updateFirst p f l := by
  induction l with
  | nil => simp at hy
  | cons a l ih =>
    by_cases h : p a = true
    · rw [updateFirst_cons_pos p f a l h]
      rcases List.mem_cons.mp hy with h1 | h1
      · rw [h1] at hp; rw [hp] at h; cases h
      · exact List.mem_cons_of_mem _ h1
    · have h' : p a = false := by simpa using h
      rw [updateFirst_cons_neg p f a l h']
      rcases List.mem_cons.mp hy with h1 | h1
      · exact h1 ▸ List.mem_cons_self _ _
      · exact List.mem_cons_of_mem _ (ih h1)

/-- When at most one member satisfies `p`, every `p`-member of the
updated list is the image of the element `find?` located. -/
theorem eq_image_of_mem_updateFirst (p : α → Bool) (f : α → α) (l : List α) (x : α)
    (hcount : l.countP p ≤ 1) (hfind : l.find? p = some x) :
    ∀ y ∈ updateFirst p f l, p y = true → y = f x := by
  induction l with
  | nil => simp at hfind
  | cons a l ih =>
    by_cases h : p a = true
    · rw [List.find?_cons_of_pos _ h] at hfind
      have hax := Option.some.inj hfind
      subst hax
      rw [updateFirst_cons_pos p f a l h]
      intro y hy hpy
      rcases List.mem_cons.mp hy with h1 | h1
      · exact h1
      · exfalso
        have hzero : l.countP p = 0 := by
          simp only [List.countP_cons, h, if_true] at hcount; omega
        exact absurd hpy (by simpa using List.countP_eq_zero.mp hzero y h1)
    · have h' : p a = false := by simpa using h
      rw [List.find?_cons_of_neg _ (by simp [h'])] at hfind
      rw [updateFirst_cons_neg p f a l h']
      intro y hy hpy
      rcases List.mem_cons.mp hy with h1 | h1
      · rw [h1] at hpy; rw [hpy] at h'; cases h'
      · have hc : l.countP p ≤ 1 := by
          rw [List.countP_cons, h'] at hcount; omega
        exact ih hc hfind y h1 hpy

/-- Updating a list whose prefix has no `p`-element only touches the
suffix. -/
theorem updateFirst_append_left (p : α → Bool) (f : α → α) (l l' : List α)
    (h : l.find? p = none) : updateFirst p f (l ++ l') = l ++ updateFirst p f l' := by
  induction l with
  | nil => rfl
  | cons a l ih =>
    have ha : p a = false := by
      simpa using List.find?_eq_none.mp h a (List.mem_cons_self _ _)
    have htail : l.find? p = none := by
      rw [List.find?_cons_of_neg _ (by simp [ha])] at h; exact h
    simp only [List.cons_append]
    rw [updateFirst_cons_neg p f _ _ ha, ih htail]

/-- A list with no `p`-element has `countP p` zero. -/
theorem countP_eq_zero_of_find?_none (p : α → Bool) (l : List α)
    (h : l.find? p = none) : l.countP p = 0 :=
  List.countP_eq_zero.mpr (fun a ha => by simpa using List.find?_eq_none.mp h a ha)

/-! The per-class operation sequences of the capacity invariant: each
element is an Enroll or a Cancel request by some student against the
fixed class, and a rejected request leaves the store untouched (the
handler rolls back and returns the error to the caller). -/

inductive StuOp where
  | enrollOp (s : StudentRec)
  | cancelOp (s : StudentRec)

/-- Run one student request against class `cid`; an error leaves the
database unchanged. -/
def applyOp (ctx : Ctx) (cid : Nat) (db : DB) : StuOp → DB
  | .enrollOp s =>
    match enroll_course ctx db (some cid) (some s) with
    | .ok db2 => db2
    | .error _ => db
  | .cancelOp s =>
    match cancel_enrollment ctx db (some cid) (some s) with
    | .ok db2 => db2
    | .error _ => db

/-- Run a sequence of Enroll/Cancel requests against class `cid`. -/
def applyOps (ctx : Ctx) (cid : Nat) : List StuOp → DB → DB
  | [], db => db
  | op :: ops, db => applyOps ctx cid ops (applyOp ctx cid db op)

/-- The filter selecting the Registered rows of class `cid`. -/
def regPred (cid : Nat) : EnrollmentRec → Bool :=
  fun e => e.class_id == cid && e.status == EnrollmentStatus.REGISTERED

/-- The number of enrollment rows of class `cid` with status Registered. -/
def regCount (db : DB) (cid : Nat) : Nat :=
  db.enrollments.countP (regPred cid)

/-- The number of enrollment rows of the (student, class) pair, in any
status. -/
def pairCount (db : DB) (sid cid : Nat) : Nat :=
  db.enrollments.countP (pairPred sid cid)

/-! Concrete fixtures used by the counterexamples and witnesses below:
one department-1 course offered as class 1 in the current academic
period, plus students in and out of that department. -/

def ctx0 : Ctx :=
  { current_date := 50, now := 5000, current_semester := "Học kỳ 1",
    current_academic_year := "2025-2026" }

def dept1 : DepartmentRec := { department_id := 1, department_name := "CNTT" }

def dept2 : DepartmentRec := { department_id := 2, department_name := "Toán" }

def course10 : CourseRec := { course_id := 10, department_id := some 1 }

def class1 : ClassRec :=
  { class_id := 1, course_id := 10, teacher_id := none, semester := "Học kỳ 1",
    academic_year := "2025-2026", max_capacity := 30, current_enrollment := 0,
    status := ClassStatus.OPEN, start_date := 100, end_date := 200 }

def stu1 : StudentRec := { student_id := 1, department_id := some 1 }

def stu2 : StudentRec := { student_id := 2, department_id := some 2 }

def stuNoDept : StudentRec := { student_id := 3, department_id := none }

def row1 : EnrollmentRec :=
  { enrollment_id := 1, student_id := 1, class_id := 1, enrollment_date := 0,
    grade := none, status := EnrollmentStatus.REGISTERED, cancellation_date := none,
    score := none }

def rowDone : EnrollmentRec :=
  { row1 with status := EnrollmentStatus.COMPLETE, grade := some "A", score := some 9 }

/-- Store with an empty class 1 and no enrollments. -/
def dbE : DB :=
  { departments := [dept1, dept2], courses := [course10], teachers := [],
    classes := [class1], schedules := [], enrollments := [], next_enrollment_id := 1 }

/-- Store with one Registered enrollment (id 1) of student 1 in class 1. -/
def dbG : DB :=
  { dbE with enrollments := [row1], next_enrollment_id := 2 }

/-- Store whose class 1 is at capacity. -/
def dbF : DB := { dbE with classes := [{ class1 with current_enrollment := 30 }] }

/-- Store whose class 1 already started (day 40 < today = day 50). -/
def dbT : DB := { dbE with classes := [{ class1 with start_date := 40 }] }

/-- Store whose class 1 is InProgress rather than Open. -/
def dbNO : DB := { dbE with classes := [{ class1 with status := ClassStatus.IN_PROGRESS }] }

/-- Store whose only enrollment of the pair (student 1, class 1) is
terminal (Completed, graded A with score 9). -/
def dbDone : DB := { dbE with enrollments := [rowDone], next_enrollment_id := 2 }

/-- Store violating the capacity bound while satisfying the counter
equation: class 1 holds one Registered row and current_enrollment = 1,
but max_capacity is 0. -/
def dbOver : DB :=
  { dbE with classes := [{ class1 with max_capacity := 0, current_enrollment := 1 }],
             enrollments := [row1], next_enrollment_id := 2 }

/-- C1: on a Registered enrollment, finalizing with score 9 (which the
claim maps to grade A and status Completed, returned to the caller) does
not commit a grade at all: the branch reads the enum attribute COMPLETED,
which does not exist in models.py (the member is COMPLETE), so the
AttributeError is caught and the request fails with the generic
UPDATE_GRADE_FAILED rollback.  Scores below 4.0 use the existing member
Failed and do commit grade F with terminal status. -/
theorem update_student_grade_completed_branch_crashes :
    EnrollmentStatus.attr "COMPLETED" = none
      ∧ update_student_grade dbG (some 1) (some 9) = .error .UPDATE_GRADE_FAILED
      ∧ (update_student_grade dbG (some 1) (some 3)).toOption.map (fun p => p.2)
          = some { score := 3, grade := "F", status := EnrollmentStatus.Failed } :=
  ⟨rfl, rfl, rfl⟩

/-- C5: the claim accepts exactly the scores in [0,10], with 0.0 graded F
and 10.0 graded A.  On the code, a submitted score of 0 is caught by the
Python-truthiness required-fields test and rejected as
MISSING_REQUIRED_FIELDS, and a score of 10 passes the range check but
crashes in the grade-A branch (missing enum member COMPLETED), failing
with UPDATE_GRADE_FAILED.  Out-of-range scores -0.01 and 10.01 are
rejected with INVALID_SCORE as claimed. -/
theorem update_student_grade_score_boundaries :
    update_student_grade dbG (some 1) (some 0) = .error .MISSING_REQUIRED_FIELDS
      ∧ update_student_grade dbG (some 1) (some 10) = .error .UPDATE_GRADE_FAILED
      ∧ update_student_grade dbG (some 1) (some (mkRat (-1) 100)) = .error .INVALID_SCORE
      ∧ update_student_grade dbG (some 1) (some (mkRat 1001 100)) = .error .INVALID_SCORE :=
  ⟨rfl, rfl, rfl, rfl⟩

/-- C2 counterexample: the claim's hypothesis only requires that the
counter initially equals the Registered count.  In a store where class 1
has current_enrollment = 1 = Registered count but max_capacity = 0, the
empty operation sequence leaves the store unchanged and the claimed
conclusion current_enrollment <= max_capacity is false. -/
theorem capacity_claim_fails_without_initial_bound :
    regCount dbOver 1 = 1
      ∧ (dbOver.findClass 1).map (fun c => c.current_enrollment) = some 1
      ∧ applyOps ctx0 1 [] dbOver = dbOver
      ∧ (dbOver.findClass 1).map (fun c => decide (c.current_enrollment ≤ c.max_capacity))
          = some false :=
  ⟨rfl, rfl, rfl, rfl⟩

/-- C3 counterexample: grade finalization performs no check of the target
enrollment's status.  On a store whose (student 1, class 1) enrollment is
terminal (Completed, grade A, score 9), finalizing with score 2 succeeds
and overwrites the terminal row with status Failed, grade F, score 2. -/
theorem finalize_overwrites_terminal_enrollment :
    (dbDone.findEnrollmentById 1).map (fun e => e.status) = some EnrollmentStatus.COMPLETE
      ∧ (update_student_grade dbDone (some 1) (some 2)).toOption.map
          (fun p => (p.1.findEnrollmentById 1).map (fun e => (e.status, e.grade, e.score)))
          = some (some (EnrollmentStatus.Failed, some "F", some 2)) :=
  ⟨rfl, rfl⟩

/-- C4 counterexample: the claim places the academic-period/registration
check after the department checks.  On a store whose class 1 already
started and a requesting student with no department, the earliest failing
check in the claim's order is the student-department check, but the code
returns REGISTRATION_CLOSED: the timing check of
validate_class_timing_constraints runs before the department checks. -/
theorem timing_check_precedes_department_checks :
    enroll_course ctx0 dbT (some 1) (some stuNoDept) = .error .REGISTRATION_CLOSED
      ∧ enroll_course ctx0 dbT (some 1) (some stuNoDept) ≠ .error .STUDENT_NO_DEPARTMENT := by
  refine ⟨rfl, fun h => ?_⟩
  rw [show enroll_course ctx0 dbT (some 1) (some stuNoDept) = .error .REGISTRATION_CLOSED
      from rfl] at h
  cases h

/-- C6 counterexample: a department mismatch is not reported when the
class is full or not open; the capacity and status checks run first.
Student 2 (department 2) requesting the department-1 class 1 receives
CLASS_FULL when the class is at capacity and CLASS_NOT_OPEN when it is
InProgress, not DEPARTMENT_MISMATCH. -/
theorem department_mismatch_not_returned_when_full_or_closed :
    enroll_course ctx0 dbF (some 1) (some stu2) = .error .CLASS_FULL
      ∧ enroll_course ctx0 dbNO (some 1) (some stu2) = .error .CLASS_NOT_OPEN :=
  ⟨rfl, rfl⟩

/-! Characterization of the successful paths of enroll_course and
cancel_enrollment, used by the invariant and frame theorems below. -/

theorem enroll_course_ok_elim {ctx : Ctx} {db : DB} {cid : Nat} {s : StudentRec} {db2 : DB}
    (h : enroll_course ctx db (some cid) (some s) = .ok db2) :
    ∃ cls, db.findClass cid = some cls
      ∧ cls.status = ClassStatus.OPEN
      ∧ cls.current_enrollment < cls.max_capacity
      ∧ validate_class_timing_constraints ctx cls = none
      ∧ db2.classes = bumpClassCounter cid db.classes
      ∧ ((∃ e, db.findEnrollmentPair s.student_id cid = some e
            ∧ (e.status == EnrollmentStatus.REGISTERED) = false
            ∧ (e.status == EnrollmentStatus.COMPLETE) = false
            ∧ (e.status == EnrollmentStatus.Failed) = false
            ∧ db2.enrollments
                = updateFirst (pairPred s.student_id cid) (reenrollRow ctx) db.enrollments)
        ∨ (db.findEnrollmentPair s.student_id cid = none
            ∧ db2.enrollments = db.enrollments ++ [newEnrollmentRow ctx db s.student_id cid])) := by
  simp only [enroll_course] at h
  split at h
  · exact Except.noConfusion h
  split at h
  · exact Except.noConfusion h
  case _ cls hcls =>
  split at h
  · exact Except.noConfusion h
  case _ hopen =>
  split at h
  · exact Except.noConfusion h
  case _ hcap =>
  split at h
  · exact Except.noConfusion h
  case _ htime =>
  split at h
  · exact Except.noConfusion h
  case _ sdept hsdept =>
  split at h
  · exact Except.noConfusion h
  case _ course hcourse =>
  split at h
  · exact Except.noConfusion h
  case _ cdept hcdept =>
  split at h
  · exact Except.noConfusion h
  case _ hmatch =>
  refine ⟨cls, hcls, by simpa using hopen, by omega, htime, ?_⟩
  split at h
  case _ e hpair =>
    split at h
    · exact Except.noConfusion h
    case _ hreg =>
    split at h
    · exact Except.noConfusion h
    case _ hterm =>
    cases h
    refine ⟨rfl, Or.inl ⟨e, hpair, by simpa using hreg, ?_, ?_,  rfl⟩⟩
    · simp only [Bool.or_eq_true, not_or] at hterm
      simpa using hterm.1
    · simp only [Bool.or_eq_true, not_or] at hterm
      simpa using hterm.2
  case _ hpair =>
    cases h
    exact ⟨rfl, Or.inr ⟨hpair, rfl⟩⟩

theorem cancel_enrollment_ok_elim {ctx : Ctx} {db : DB} {cid : Nat} {s : StudentRec} {db2 : DB}
    (h : cancel_enrollment ctx db (some cid) (some s) = .ok db2) :
    ∃ cls e, db.findClass cid = some cls
      ∧ db.enrollments.find? (cancelPred s.student_id cid) = some e
      ∧ db2.classes
          = updateFirst (fun c => c.class_id == cid)
              (fun c => { c with current_enrollment := max 0 (c.current_enrollment - 1) })
              db.classes
      ∧ db2.enrollments
          = updateFirst (cancelPred s.student_id cid)
              (fun e2 => { e2 with status := EnrollmentStatus.CANCELLED,
                                   cancellation_date := some ctx.now })
              db.enrollments := by
  simp only [cancel_enrollment] at h
  split at h
  · exact Except.noConfusion h
  split at h
  · exact Except.noConfusion h
  case _ cls hcls =>
  split at h
  · exact Except.noConfusion h
  split at h
  · exact Except.noConfusion h
  case _ e hfound =>
  split at h
  · exact Except.noConfusion h
  split at h
  · exact Except.noConfusion h
  split at h
  · exact Except.noConfusion h
  cases h
  exact ⟨cls, e, hcls, hfound, rfl, rfl⟩

/-- Replacing a row by an image with the same `q`-status leaves `countP q`
unchanged. -/
theorem countP_updateFirst_eq (p q : α → Bool) (f : α → α) (l : List α) (x : α)
    (hfind : l.find? p = some x) (hq : q (f x) = q x) :
    (updateFirst p f l).countP q = l.countP q := by
  have h := countP_updateFirst p q f l x hfind
  rw [hq] at h
  exact Nat.add_right_cancel h

/-- Well-formedness of the store: at most one class row per class_id (a
primary key) and at most one enrollment row per (student, class) pair
(the unique_student_class constraint of models.py). -/
def WF (db : DB) : Prop :=
  (∀ k, db.classes.countP (fun c => c.class_id == k) ≤ 1)
    ∧ ∀ a b, pairCount db a b ≤ 1

/-- The capacity invariant of the class `cid` (spec §3): its stored
counter equals the number of its Registered rows and respects the
capacity bound. -/
def CapacityInv (db : DB) (cid : Nat) : Prop :=
  ∀ c ∈ db.classes, c.class_id = cid →
    c.current_enrollment = (regCount db cid : Int)
      ∧ c.current_enrollment ≤ c.max_capacity

theorem enroll_course_ok_pairCount {ctx : Ctx} {db : DB} {cid : Nat} {s : StudentRec}
    {db2 : DB} (hpairs : ∀ a b, pairCount db a b ≤ 1)
    (h : enroll_course ctx db (some cid) (some s) = .ok db2) :
    ∀ a b, pairCount db2 a b ≤ 1 := by
  obtain ⟨cls, hcls, -, -, -, hclasses, hbranch⟩ := enroll_course_ok_elim h
  intro a b
  rcases hbranch with ⟨e, hpair, -, -, -, henr⟩ | ⟨hpair, henr⟩
  · rw [pairCount, henr, countP_updateFirst_eq _ _ _ _ e hpair rfl]
    exact hpairs a b
  · rw [pairCount, henr, List.countP_append]
    by_cases hq : pairPred a b (newEnrollmentRow ctx db s.student_id cid) = true
    · have hab : s.student_id = a ∧ cid = b := by
        simpa [pairPred, newEnrollmentRow] using hq
      obtain ⟨rfl, rfl⟩ := hab
      have hzero : db.enrollments.countP (pairPred s.student_id cid) = 0 :=
        countP_eq_zero_of_find?_none _ _ hpair
      simp [hzero, hq]
    · simp only [List.countP_cons, List.countP_nil]
      rw [Bool.not_eq_true] at hq
      rw [hq]
      simpa using hpairs a b

theorem enroll_course_ok_WF {ctx : Ctx} {db : DB} {cid : Nat} {s : StudentRec} {db2 : DB}
    (hWF : WF db) (h : enroll_course ctx db (some cid) (some s) = .ok db2) : WF db2 := by
  obtain ⟨cls, hcls, -, -, -, hclasses, hbranch⟩ := enroll_course_ok_elim h
  refine ⟨?_, enroll_course_ok_pairCount hWF.2 h⟩
  intro k
  rw [hclasses, bumpClassCounter,
      countP_updateFirst_eq _ _ _ _ cls hcls rfl]
  exact hWF.1 k

theorem cancel_enrollment_ok_WF {ctx : Ctx} {db : DB} {cid : Nat} {s : StudentRec} {db2 : DB}
    (hWF : WF db) (h : cancel_enrollment ctx db (some cid) (some s) = .ok db2) : WF db2 := by
  obtain ⟨cls, e, hcls, hfound, hclasses, henr⟩ := cancel_enrollment_ok_elim h
  constructor
  · intro k
    rw [hclasses, countP_updateFirst_eq _ _ _ _ cls hcls rfl]
    exact hWF.1 k
  · intro a b
    rw [pairCount, henr, countP_updateFirst_eq _ _ _ _ e hfound rfl]
    exact hWF.2 a b

theorem enroll_course_ok_capacity {ctx : Ctx} {db : DB} {cid : Nat} {s : StudentRec} {db2 : DB}
    (hWF : WF db) (hinv : CapacityInv db cid)
    (h : enroll_course ctx db (some cid) (some s) = .ok db2) : CapacityInv db2 cid := by
  obtain ⟨cls, hcls, -, hcap, -, hclasses, hbranch⟩ := enroll_course_ok_elim h
  have hclsmem : cls ∈ db.classes := List.mem_of_find?_eq_some hcls
  have hclsid : cls.class_id = cid := by simpa using List.find?_some hcls
  obtain ⟨hceq, -⟩ := hinv cls hclsmem hclsid
  have hreg : regCount db2 cid = regCount db cid + 1 := by
    rcases hbranch with ⟨e, hpair, hnotreg, -, -, henr⟩ | ⟨hpair, henr⟩
    · have hq1 : regPred cid e = false := by
        simp [regPred, hnotreg]
      have hq2 : regPred cid (reenrollRow ctx e) = true := by
        have : (e.class_id == cid) = true := by
          have := List.find?_some hpair
          simp only [pairPred, Bool.and_eq_true] at this
          exact this.2
        simp [regPred, reenrollRow, this]
      have hcount := countP_updateFirst (pairPred s.student_id cid) (regPred cid)
        (reenrollRow ctx) db.enrollments e hpair
      rw [hq1, hq2] at hcount
      rw [show (if (true = true) then 1 else 0) = 1 from rfl,
          show (if (false = true) then 1 else 0) = 0 from rfl] at hcount
      rw [regCount, henr, regCount]
      omega
    · have hq : regPred cid (newEnrollmentRow ctx db s.student_id cid) = true := by
        simp [regPred, newEnrollmentRow, EnrollmentStatus.REGISTERED]
      rw [regCount, henr, List.countP_append, regCount]
      simp [hq]
  intro c hc hcid
  have hc2 : c = { cls with current_enrollment := cls.current_enrollment + 1 } := by
    rw [hclasses] at hc
    exact eq_image_of_mem_updateFirst _ _ _ _ (hWF.1 cid) hcls c hc (by simp [hcid])
  subst hc2
  constructor
  · simp only [hreg, hceq]
    push_cast
    ring
  · simp only []
    omega

theorem cancel_enrollment_ok_capacity {ctx : Ctx} {db : DB} {cid : Nat} {s : StudentRec}
    {db2 : DB} (hWF : WF db) (hinv : CapacityInv db cid)
    (h : cancel_enrollment ctx db (some cid) (some s) = .ok db2) : CapacityInv db2 cid := by
  obtain ⟨cls, e, hcls, hfound, hclasses, henr⟩ := cancel_enrollment_ok_elim h
  have hclsmem : cls ∈ db.classes := List.mem_of_find?_eq_some hcls
  have hclsid : cls.class_id = cid := by simpa using List.find?_some hcls
  obtain ⟨hceq, hble⟩ := hinv cls hclsmem hclsid
  have hq1 : regPred cid e = true := by
    have := List.find?_some hfound
    simp only [cancelPred, Bool.and_eq_true] at this
    simp [regPred, this.1.2, this.2]
  have hq2 : regPred cid
      ({ e with status := EnrollmentStatus.CANCELLED, cancellation_date := some ctx.now })
      = false := by
    simp [regPred, EnrollmentStatus.CANCELLED, EnrollmentStatus.REGISTERED]
  have hcount := countP_updateFirst (cancelPred s.student_id cid) (regPred cid)
    (fun e2 => { e2 with status := EnrollmentStatus.CANCELLED,
                         cancellation_date := some ctx.now })
    db.enrollments e hfound
  rw [hq1, hq2] at hcount
  rw [show (if (true = true) then 1 else 0) = 1 from rfl,
      show (if (false = true) then 1 else 0) = 0 from rfl] at hcount
  have hpos : 1 ≤ regCount db cid := by
    rw [regCount]
    omega
  have hreg : regCount db2 cid = regCount db cid - 1 := by
    rw [regCount, henr, regCount]
    rw [regCount] at hpos
    omega
  intro c hc hcid
  have hc2 : c = { cls with current_enrollment := max 0 (cls.current_enrollment - 1) } := by
    rw [hclasses] at hc
    exact eq_image_of_mem_updateFirst _ _ _ _ (hWF.1 cid) hcls c hc (by simp [hcid])
  subst hc2
  constructor
  · simp only [hreg, hceq]
    have : (1 : Int) ≤ (regCount db cid : Int) := by exact_mod_cast hpos
    omega
  · simp only []
    omega

theorem applyOp_preserves {ctx : Ctx} {cid : Nat} {db : DB} (op : StuOp)
    (hWF : WF db) (hinv : CapacityInv db cid) :
    WF (applyOp ctx cid db op) ∧ CapacityInv (applyOp ctx cid db op) cid := by
  cases op with
  | enrollOp s =>
    simp only [applyOp]
    split
    case _ db2 heq =>
      exact ⟨enroll_course_ok_WF hWF heq, enroll_course_ok_capacity hWF hinv heq⟩
    case _ err heq => exact ⟨hWF, hinv⟩
  | cancelOp s =>
    simp only [applyOp]
    split
    case _ db2 heq =>
      exact ⟨cancel_enrollment_ok_WF hWF heq, cancel_enrollment_ok_capacity hWF hinv heq⟩
    case _ err heq => exact ⟨hWF, hinv⟩

theorem applyOps_preserves {ctx : Ctx} {cid : Nat} (ops : List StuOp) (db : DB)
    (hWF : WF db) (hinv : CapacityInv db cid) :
    WF (applyOps ctx cid ops db) ∧ CapacityInv (applyOps ctx cid ops db) cid := by
  induction ops generalizing db with
  | nil => exact ⟨hWF, hinv⟩
  | cons op ops ih =>
    obtain ⟨hWF2, hinv2⟩ := applyOp_preserves op hWF hinv
    exact ih _ hWF2 hinv2

/-- A list whose `key`-images are pairwise distinct has at most one
member satisfying any predicate that pins the key to one value. -/
theorem countP_le_one_of_nodup_map {α κ : Type} (key : α → κ) (l : List α)
    (hnd : (l.map key).Nodup) (p : α → Bool) (k : κ)
    (hp : ∀ x, p x = true → key x = k) : l.countP p ≤ 1 := by
  induction l with
  | nil => simp
  | cons a l ih =>
    rw [List.map_cons, List.nodup_cons] at hnd
    rw [List.countP_cons]
    by_cases hk : p a = true
    · have hka : key a = k := hp a hk
      have hzero : l.countP p = 0 := by
        rw [List.countP_eq_zero]
        intro b hb hbp
        refine hnd.1 ?_
        rw [hka, ← hp b hbp]
        exact List.mem_map_of_mem key hb
      simp [hk, hzero]
    · rw [Bool.not_eq_true] at hk
      rw [hk]
      simpa using ih hnd.2

/-- Decidable sufficient condition for `WF`: the class ids and the
(student, class) key pairs are duplicate-free. -/
def WFb (db : DB) : Bool :=
  decide (db.classes.map (fun c => c.class_id)).Nodup
    && decide (db.enrollments.map (fun e => (e.student_id, e.class_id))).Nodup

theorem WF_of_WFb (db : DB) (h : WFb db = true) : WF db := by
  rw [WFb, Bool.and_eq_true, decide_eq_true_eq, decide_eq_true_eq] at h
  constructor
  · intro k
    refine countP_le_one_of_nodup_map (fun c => c.class_id) db.classes h.1 _ k ?_
    intro x hx
    simpa using hx
  · intro a b
    refine countP_le_one_of_nodup_map (fun e => (e.student_id, e.class_id)) db.enrollments
      h.2 _ (a, b) ?_
    intro x hx
    simp only [pairPred, Bool.and_eq_true, beq_iff_eq] at hx
    simp [hx.1, hx.2]

/-- The conclusion of the capacity-invariant claim for one class: the
stored counter equals the number of Registered rows and lies between 0
and max_capacity. -/
def CounterMatches (db : DB) (cid : Nat) : Prop :=
  ∀ c ∈ db.classes, c.class_id = cid →
    c.current_enrollment = (regCount db cid : Int)
      ∧ 0 ≤ c.current_enrollment ∧ c.current_enrollment ≤ c.max_capacity

/-- C2 (amended): starting from a well-formed store in which class `cid`
satisfies the capacity invariant (counter = Registered count AND counter
<= max_capacity), any sequence of Enroll and Cancel requests against that
class leaves the counter equal to the count of its Registered rows and
within [0, max_capacity].  Each successful Enroll commits its row change
and its +1 counter bump in one step, and each successful Cancel its row
change and -1 in one step, as the single ok-result of the handler; a
rejected request changes nothing. -/
theorem capacity_invariant_after_sequence
    (ctx : Ctx) (cid : Nat) (ops : List StuOp) (db : DB)
    (hWF : WF db) (hinv : CapacityInv db cid) :
    CounterMatches (applyOps ctx cid ops db) cid := by
  obtain ⟨-, hinv2⟩ := applyOps_preserves ops db hWF hinv
  intro c hc hcid
  obtain ⟨h1, h2⟩ := hinv2 c hc hcid
  refine ⟨h1, ?_, h2⟩
  rw [h1]
  omega

/-- Witness for C2: the empty department-1 class run through the sequence
Enroll, Cancel, Enroll by student 1. -/
theorem capacity_invariant_after_sequence_witness :
    WF dbE ∧ CapacityInv dbE 1
      ∧ CounterMatches
          (applyOps ctx0 1 [StuOp.enrollOp stu1, StuOp.cancelOp stu1, StuOp.enrollOp stu1] dbE)
          1 := by
  have hWF : WF dbE := WF_of_WFb dbE (by decide)
  have hinv : CapacityInv dbE 1 := by
    intro c hc hcid
    rw [show dbE.classes = [class1] from rfl, List.mem_singleton] at hc
    subst hc
    exact ⟨by decide, by decide⟩
  exact ⟨hWF, hinv, capacity_invariant_after_sequence ctx0 1 _ dbE hWF hinv⟩

/-- Store whose only row of the pair (student 1, class 1) is Cancelled. -/
def dbC : DB :=
  { dbE with
    enrollments := [{ row1 with status := EnrollmentStatus.CANCELLED,
                                cancellation_date := some 100 }],
    next_enrollment_id := 2 }

/-- The store after student 1 re-enrolls into class 1 on `dbC`. -/
def dbC2 : DB := (enroll_course ctx0 dbC (some 1) (some stu1)).toOption.getD dbC

/-- C9: in a store with at most one enrollment row per (student, class)
pair - the unique_student_class constraint of models.py - a successful
Enroll preserves that bound for every pair, and when a row for the
requesting pair already exists (in any status) the operation reuses it:
the number of enrollment rows does not change. -/
theorem enroll_course_pair_row_unique
    (ctx : Ctx) (db : DB) (cid : Nat) (s : StudentRec) (db2 : DB)
    (hpairs : ∀ a b, pairCount db a b ≤ 1)
    (h : enroll_course ctx db (some cid) (some s) = .ok db2) :
    (∀ a b, pairCount db2 a b ≤ 1)
      ∧ ∀ e, db.findEnrollmentPair s.student_id cid = some e
          → db2.enrollments.length = db.enrollments.length := by
  refine ⟨enroll_course_ok_pairCount hpairs h, ?_⟩
  intro e hpair
  obtain ⟨cls, -, -, -, -, -, hbranch⟩ := enroll_course_ok_elim h
  rcases hbranch with ⟨e2, -, -, -, -, henr⟩ | ⟨hnone, -⟩
  · rw [henr, length_updateFirst]
  · rw [DB.findEnrollmentPair] at hpair
    rw [DB.findEnrollmentPair, hpair] at hnone
    exact Option.noConfusion hnone

/-- Witness for C9: re-enrolling student 1 into class 1 over the
cancelled row of `dbC` keeps every pair at one row and inserts nothing. -/
theorem enroll_course_pair_row_unique_witness :
    pairCount dbC2 1 1 ≤ 1 ∧ dbC2.enrollments.length = dbC.enrollments.length := by
  have hpairs : ∀ a b, pairCount dbC a b ≤ 1 := (WF_of_WFb dbC (by decide)).2
  have h := enroll_course_pair_row_unique ctx0 dbC 1 stu1 dbC2 hpairs rfl
  exact ⟨h.1 1 1, h.2 _ rfl⟩

/-- The frame of a successful Enroll into class `cid` by student `sid`:
classes other than `cid` are untouched; the `cid` class differs from its
old row only in `current_enrollment`, which grew by exactly 1 (its
max_capacity, status, teacher_id, semester, academic_year, start_date and
end_date are those of the old row); and every enrollment row not
belonging to the pair (`sid`, `cid`) is untouched in both directions. -/
def EnrollFrame (db db2 : DB) (sid cid : Nat) : Prop :=
  (∀ c ∈ db.classes, c.class_id ≠ cid → c ∈ db2.classes)
    ∧ (∀ c ∈ db2.classes, c.class_id ≠ cid → c ∈ db.classes)
    ∧ (∀ c ∈ db2.classes, c.class_id = cid →
        ∃ c0, c0 ∈ db.classes ∧ c0.class_id = cid
          ∧ c = { c0 with current_enrollment := c0.current_enrollment + 1 })
    ∧ (∀ e ∈ db.enrollments, ¬(e.student_id = sid ∧ e.class_id = cid) → e ∈ db2.enrollments)
    ∧ (∀ e ∈ db2.enrollments, ¬(e.student_id = sid ∧ e.class_id = cid) → e ∈ db.enrollments)

/-- C10: a successful Enroll mutates only the target class's counter and
the requesting pair's single enrollment row. -/
theorem enroll_course_frame
    (ctx : Ctx) (db : DB) (cid : Nat) (s : StudentRec) (db2 : DB)
    (hclasses : ∀ k, db.classes.countP (fun c => c.class_id == k) ≤ 1)
    (h : enroll_course ctx db (some cid) (some s) = .ok db2) :
    EnrollFrame db db2 s.student_id cid := by
  obtain ⟨cls, hcls, -, -, -, hclasses2, hbranch⟩ := enroll_course_ok_elim h
  have hclsid : cls.class_id = cid := by simpa using List.find?_some hcls
  refine ⟨?_, ?_, ?_, ?_, ?_⟩
  · intro c hc hne
    rw [hclasses2, bumpClassCounter]
    exact mem_updateFirst_of_neg _ _ _ _ hc (by simpa using hne)
  · intro c hc hne
    rw [hclasses2, bumpClassCounter] at hc
    rcases mem_updateFirst _ _ _ _ hc with h1 | ⟨x, hx1, hx2⟩
    · exact h1
    · exfalso
      have hx3 : some cls = some x := hcls.symm.trans hx1
      cases hx3
      exact hne (by rw [hx2]; exact hclsid)
  · intro c hc hcid
    rw [hclasses2, bumpClassCounter] at hc
    have := eq_image_of_mem_updateFirst _ _ _ _ (hclasses cid) hcls c hc (by simp [hcid])
    exact ⟨cls, List.mem_of_find?_eq_some hcls, hclsid, this⟩
  · intro e he hne
    rcases hbranch with ⟨e2, -, -, -, -, henr⟩ | ⟨-, henr⟩
    · rw [henr]
      refine mem_updateFirst_of_neg _ _ _ _ he ?_
      rw [Bool.eq_false_iff]
      intro hp
      exact hne (by simpa [pairPred] using hp)
    · rw [henr]
      exact List.mem_append_left _ he
  · intro e he hne
    rcases hbranch with ⟨e2, hpair, -, -, -, henr⟩ | ⟨-, henr⟩
    · rw [henr] at he
      rcases mem_updateFirst _ _ _ _ he with h1 | ⟨x, hx1, hx2⟩
      · exact h1
      · exfalso
        have hx3 : some e2 = some x := hpair.symm.trans hx1
        cases hx3
        have hp : pairPred s.student_id cid e2 = true := List.find?_some hpair
        refine hne ?_
        rw [hx2]
        simpa [pairPred, reenrollRow] using hp
    · rw [henr] at he
      rcases List.mem_append.mp he with h1 | h1
      · exact h1
      · exfalso
        rw [List.mem_singleton] at h1
        exact hne (by rw [h1]; exact ⟨rfl, rfl⟩)

/-- The store after student 1 enrolls into the empty class 1 of `dbE`. -/
def dbE2 : DB := (enroll_course ctx0 dbE (some 1) (some stu1)).toOption.getD dbE

/-- Witness for C10: the successful enroll of student 1 into class 1 of
`dbE` satisfies the frame property. -/
theorem enroll_course_frame_witness : EnrollFrame dbE dbE2 1 1 :=
  enroll_course_frame ctx0 dbE 1 stu1 dbE2 (WF_of_WFb dbE (by decide)).1 rfl

/-- In a list with at most one `p`-member, any two `p`-members are
equal. -/
theorem eq_of_countP_le_one (p : α → Bool) (l : List α) (h : l.countP p ≤ 1)
    (x y : α) (hx : x ∈ l) (hy : y ∈ l) (hpx : p x = true) (hpy : p y = true) :
    x = y := by
  induction l with
  | nil => simp at hx
  | cons c l ih =>
    rw [List.countP_cons] at h
    rcases List.mem_cons.mp hx with rfl | hx2
    · rcases List.mem_cons.mp hy with rfl | hy2
      · rfl
      · exfalso
        rw [hpx, show (if (true = true) then 1 else 0) = 1 from rfl] at h
        have hzero : l.countP p = 0 := by omega
        exact absurd hpy (by simpa using List.countP_eq_zero.mp hzero y hy2)
    · rcases List.mem_cons.mp hy with rfl | hy2
      · exfalso
        rw [hpy, show (if (true = true) then 1 else 0) = 1 from rfl] at h
        have hzero : l.countP p = 0 := by omega
        exact absurd hpx (by simpa using List.countP_eq_zero.mp hzero x hx2)
      · refine ih ?_ hx2 hy2
        by_cases hc : p c = true
        · rw [hc, show (if (true = true) then 1 else 0) = 1 from rfl] at h
          omega
        · rw [Bool.not_eq_true] at hc
          rw [hc, show (if (false = true) then 1 else 0) = 0 from rfl] at h
          omega

/-- C3 (amended): for an enrollment row of the pair (student, class) in a
terminal state (Completed or Failed), Enroll never succeeds on the pair
and Cancel never succeeds on the pair, so neither changes the terminal
row; but grade finalization performs no status check: a finalize request
against that row with a valid score strictly between 0 and 4 succeeds and
overwrites the terminal row's status, score and grade (scores >= 4 fail
only because of the unrelated missing-enum-member crash). -/
theorem terminal_enrollment_immutability
    (ctx : Ctx) (db : DB) (cid : Nat) (s : StudentRec) (e : EnrollmentRec)
    (hpairs : ∀ a b, pairCount db a b ≤ 1)
    (hpair : db.findEnrollmentPair s.student_id cid = some e)
    (hterm : e.status = EnrollmentStatus.COMPLETE ∨ e.status = EnrollmentStatus.Failed) :
    (∀ db2, enroll_course ctx db (some cid) (some s) ≠ .ok db2)
      ∧ (∀ db2, cancel_enrollment ctx db (some cid) (some s) ≠ .ok db2)
      ∧ ∀ q : Rat, 0 < q → q < 4 → e.enrollment_id ≠ 0
          → db.findEnrollmentById e.enrollment_id = some e
          → (update_student_grade db (some e.enrollment_id) (some q)).toOption
              = some
                  ({ db with
                     enrollments :=
                       updateFirst (fun e2 => e2.enrollment_id == e.enrollment_id)
                         (fun e2 => { e2 with score := some q, grade := some "F",
                                              status := EnrollmentStatus.Failed })
                         db.enrollments },
                   { score := q, grade := "F", status := EnrollmentStatus.Failed }) := by
  refine ⟨?_, ?_, ?_⟩
  · intro db2 h
    obtain ⟨cls, -, -, -, -, -, hbranch⟩ := enroll_course_ok_elim h
    rcases hbranch with ⟨e2, hp2, -, hc2, hf2, -⟩ | ⟨hp2, -⟩
    · have he : e = e2 := Option.some.inj (hpair.symm.trans hp2)
      subst he
      rcases hterm with h' | h'
      · rw [h'] at hc2
        exact absurd hc2 (by decide)
      · rw [h'] at hf2
        exact absurd hf2 (by decide)
    · rw [hpair] at hp2
      exact Option.noConfusion hp2
  · intro db2 h
    obtain ⟨cls, e2, -, hfound, -, -⟩ := cancel_enrollment_ok_elim h
    have hp2 : cancelPred s.student_id cid e2 = true := List.find?_some hfound
    have hsplit := hp2
    simp only [cancelPred, Bool.and_eq_true] at hsplit
    have hpp2 : pairPred s.student_id cid e2 = true := by
      simp only [pairPred, Bool.and_eq_true]
      exact hsplit.1
    have he : e = e2 :=
      eq_of_countP_le_one _ _ (hpairs s.student_id cid) e e2
        (List.mem_of_find?_eq_some hpair) (List.mem_of_find?_eq_some hfound)
        (List.find?_some hpair) hpp2
    subst he
    have hreg : e.status = EnrollmentStatus.REGISTERED := by simpa using hsplit.2
    rcases hterm with h' | h' <;> rw [h'] at hreg <;> exact absurd hreg (by decide)
  · intro q hq0 hq4 hne hById
    have hfalsy : (falsyNat (some e.enrollment_id) || falsyRat (some q)) = false := by
      simp only [falsyNat, falsyRat, Bool.or_eq_false_iff]
      constructor
      · simpa using hne
      · simpa using ne_of_gt hq0
    have hr1 : ¬(q < 0) := by nlinarith [hq0]
    have hr2 : ¬(q > 10) := by nlinarith [hq4]
    have h85 : ¬(q ≥ mkRat 17 2) := by
      rw [Rat.mkRat_eq_div]
      intro hcon
      nlinarith [hq4, hcon]
    have h7 : ¬(q ≥ (7 : Rat)) := fun hcon => by nlinarith [hq4, hcon]
    have h55 : ¬(q ≥ mkRat 11 2) := by
      rw [Rat.mkRat_eq_div]
      intro hcon
      nlinarith [hq4, hcon]
    have h4 : ¬(q ≥ (4 : Rat)) := fun hcon => by nlinarith [hq4, hcon]
    rw [update_student_grade, hfalsy]
    simp only [Bool.false_eq_true, if_false, hById, decide_eq_false hr1, decide_eq_false hr2,
               Bool.or_self, if_neg h85, if_neg h7, if_neg h55, if_neg h4]
    rfl

/-- Witness for C3: on the store whose (student 1, class 1) row is
Completed with grade A, Enroll and Cancel fail but finalize with score 2
goes through. -/
theorem terminal_enrollment_immutability_witness :
    enroll_course ctx0 dbDone (some 1) (some stu1) ≠ .ok dbDone
      ∧ cancel_enrollment ctx0 dbDone (some 1) (some stu1) ≠ .ok dbDone
      ∧ (update_student_grade dbDone (some 1) (some 2)).toOption.isSome = true := by
  have H := terminal_enrollment_immutability ctx0 dbDone 1 stu1 rowDone
    (WF_of_WFb dbDone (by decide)).2 rfl (Or.inl rfl)
  refine ⟨H.1 dbDone, H.2.1 dbDone, ?_⟩
  rw [show (1 : Nat) = rowDone.enrollment_id from rfl,
      H.2.2 2 (by decide) (by decide) (by decide) rfl]
  rfl

/-- C4 (amended): the Enroll eligibility checks run in the source order
class-exists, class-Open, capacity, timing (RegistrationClosed /
ClassEnded / WrongSemester from validate_class_timing_constraints),
student department, course department, department equality; each conjunct
below states that when every earlier check passes and one check fails,
that check's rejection is returned - so for an input failing several
checks the earliest one in this order wins. -/
theorem enroll_course_check_order
    (ctx : Ctx) (db : DB) (cid : Nat) (s : StudentRec) (hcid : cid ≠ 0) :
    (db.findClass cid = none
        → enroll_course ctx db (some cid) (some s) = .error .CLASS_NOT_FOUND)
      ∧ (∀ cls, db.findClass cid = some cls → cls.status ≠ ClassStatus.OPEN
          → enroll_course ctx db (some cid) (some s) = .error .CLASS_NOT_OPEN)
      ∧ (∀ cls, db.findClass cid = some cls → cls.status = ClassStatus.OPEN
          → cls.current_enrollment ≥ cls.max_capacity
          → enroll_course ctx db (some cid) (some s) = .error .CLASS_FULL)
      ∧ (∀ cls err, db.findClass cid = some cls → cls.status = ClassStatus.OPEN
          → cls.current_enrollment < cls.max_capacity
          → validate_class_timing_constraints ctx cls = some err
          → enroll_course ctx db (some cid) (some s) = .error err)
      ∧ (∀ cls, db.findClass cid = some cls → cls.status = ClassStatus.OPEN
          → cls.current_enrollment < cls.max_capacity
          → validate_class_timing_constraints ctx cls = none
          → s.department_id = none
          → enroll_course ctx db (some cid) (some s) = .error .STUDENT_NO_DEPARTMENT)
      ∧ (∀ cls sdept course, db.findClass cid = some cls
          → cls.status = ClassStatus.OPEN
          → cls.current_enrollment < cls.max_capacity
          → validate_class_timing_constraints ctx cls = none
          → s.department_id = some sdept
          → db.findCourse cls.course_id = some course
          → course.department_id = none
          → enroll_course ctx db (some cid) (some s) = .error .COURSE_NO_DEPARTMENT)
      ∧ (∀ cls sdept course cdept, db.findClass cid = some cls
          → cls.status = ClassStatus.OPEN
          → cls.current_enrollment < cls.max_capacity
          → validate_class_timing_constraints ctx cls = none
          → s.department_id = some sdept
          → db.findCourse cls.course_id = some course
          → course.department_id = some cdept
          → sdept ≠ cdept
          → enroll_course ctx db (some cid) (some s)
              = .error (.DEPARTMENT_MISMATCH (db.departmentName sdept)
                                             (db.departmentName cdept))) := by
  have hfz : falsyNat (some cid) = false := by simp [falsyNat, hcid]
  refine ⟨?_, ?_, ?_, ?_, ?_, ?_, ?_⟩
  · intro hnone
    simp [enroll_course, hfz, hnone]
  · intro cls hcls hstat
    simp [enroll_course, hfz, hcls, bne_iff_ne, hstat]
  · intro cls hcls hstat hcap
    simp [enroll_course, hfz, hcls, hstat, not_lt.mpr hcap]
  · intro cls err hcls hstat hcap htime
    simp [enroll_course, hfz, hcls, hstat, not_le.mpr hcap, htime]
  · intro cls hcls hstat hcap htime hdept
    simp [enroll_course, hfz, hcls, hstat, not_le.mpr hcap, htime, hdept]
  · intro cls sdept course hcls hstat hcap htime hdept hcourse hcdept
    simp [enroll_course, hfz, hcls, hstat, not_le.mpr hcap, htime, hdept, hcourse, hcdept]
  · intro cls sdept course cdept hcls hstat hcap htime hdept hcourse hcdept hne
    simp [enroll_course, hfz, hcls, hstat, not_le.mpr hcap, htime, hdept, hcourse, hcdept,
          bne_iff_ne, hne]

/-- Witness for C4: on the store whose class 1 already started, with a
student who also has no department, the order theorem yields the timing
rejection REGISTRATION_CLOSED (check 4), not STUDENT_NO_DEPARTMENT. -/
theorem enroll_course_check_order_witness :
    enroll_course ctx0 dbT (some 1) (some stuNoDept) = .error .REGISTRATION_CLOSED :=
  (enroll_course_check_order ctx0 dbT 1 stuNoDept (by decide)).2.2.2.1
    { class1 with start_date := 40 } .REGISTRATION_CLOSED rfl rfl (by decide) rfl

/-- C6 (amended): when the class exists, is Open, has a free seat and
passes the timing checks, a student whose department differs from the
course's department is rejected with DEPARTMENT_MISMATCH carrying both
department names. -/
theorem department_mismatch_when_otherwise_eligible
    (ctx : Ctx) (db : DB) (cid : Nat) (s : StudentRec) (cls : ClassRec)
    (course : CourseRec) (sdept cdept : Nat) (hcid : cid ≠ 0)
    (hcls : db.findClass cid = some cls) (hstat : cls.status = ClassStatus.OPEN)
    (hcap : cls.current_enrollment < cls.max_capacity)
    (htime : validate_class_timing_constraints ctx cls = none)
    (hdept : s.department_id = some sdept)
    (hcourse : db.findCourse cls.course_id = some course)
    (hcdept : course.department_id = some cdept) (hne : sdept ≠ cdept) :
    enroll_course ctx db (some cid) (some s)
      = .error (.DEPARTMENT_MISMATCH (db.departmentName sdept) (db.departmentName cdept)) := by
  have hfz : falsyNat (some cid) = false := by simp [falsyNat, hcid]
  simp [enroll_course, hfz, hcls, hstat, not_le.mpr hcap, htime, hdept, hcourse, hcdept,
        bne_iff_ne, hne]

/-- Witness for C6: student 2 (department 2, named Toán) requesting the
open, non-full department-1 class 1 (course department named CNTT) is
rejected with both names attached. -/
theorem department_mismatch_when_otherwise_eligible_witness :
    enroll_course ctx0 dbE (some 1) (some stu2)
      = .error (.DEPARTMENT_MISMATCH "Toán" "CNTT") := by
  have h := department_mismatch_when_otherwise_eligible ctx0 dbE 1 stu2 class1 course10
    2 1 (by decide) rfl rfl (by decide) rfl rfl rfl rfl (by decide)
  simpa using h

/-- A successful Enroll through the create branch: no row exists for the
pair and every check passes. -/
theorem enroll_course_ok_create_intro
    (ctx : Ctx) (db : DB) (cid : Nat) (s : StudentRec) (cls : ClassRec)
    (course : CourseRec) (sdept : Nat) (hcid : cid ≠ 0)
    (hcls : db.findClass cid = some cls)
    (hstat : cls.status = ClassStatus.OPEN)
    (hcap : cls.current_enrollment < cls.max_capacity)
    (htime : validate_class_timing_constraints ctx cls = none)
    (hdept : s.department_id = some sdept)
    (hcourse : db.findCourse cls.course_id = some course)
    (hcdept : course.department_id = some sdept)
    (hpair : db.findEnrollmentPair s.student_id cid = none) :
    enroll_course ctx db (some cid) (some s)
      = .ok { db with
              classes := bumpClassCounter cid db.classes,
              enrollments := db.enrollments ++ [newEnrollmentRow ctx db s.student_id cid],
              next_enrollment_id := db.next_enrollment_id + 1 } := by
  have hfz : falsyNat (some cid) = false := by simp [falsyNat, hcid]
  simp [enroll_course, hfz, hcls, hstat, not_le.mpr hcap, htime, hdept, hcourse,
        hcdept, hpair]

/-- A successful Enroll through the reuse branch: a non-Registered,
non-terminal row exists for the pair and every check passes. -/
theorem enroll_course_ok_reuse_intro
    (ctx : Ctx) (db : DB) (cid : Nat) (s : StudentRec) (cls : ClassRec)
    (course : CourseRec) (sdept : Nat) (e : EnrollmentRec) (hcid : cid ≠ 0)
    (hcls : db.findClass cid = some cls)
    (hstat : cls.status = ClassStatus.OPEN)
    (hcap : cls.current_enrollment < cls.max_capacity)
    (htime : validate_class_timing_constraints ctx cls = none)
    (hdept : s.department_id = some sdept)
    (hcourse : db.findCourse cls.course_id = some course)
    (hcdept : course.department_id = some sdept)
    (hpair : db.findEnrollmentPair s.student_id cid = some e)
    (hnotreg : (e.status == EnrollmentStatus.REGISTERED) = false)
    (hnotterm : (e.status == EnrollmentStatus.COMPLETE
        || e.status == EnrollmentStatus.Failed) = false) :
    enroll_course ctx db (some cid) (some s)
      = .ok { db with
              classes := bumpClassCounter cid db.classes,
              enrollments :=
                updateFirst (pairPred s.student_id cid) (reenrollRow ctx)
                  db.enrollments } := by
  have hfz : falsyNat (some cid) = false := by simp [falsyNat, hcid]
  simp [enroll_course, hfz, hcls, hstat, not_le.mpr hcap, htime, hdept, hcourse,
        hcdept, hpair, hnotreg, hnotterm]

/-- A successful Cancel: the class allows cancellation, a Registered pair
row exists, and the window, grade and period guards all pass. -/
theorem cancel_enrollment_ok_intro
    (ctx : Ctx) (db : DB) (cid : Nat) (s : StudentRec) (cls : ClassRec)
    (e : EnrollmentRec) (hcid : cid ≠ 0)
    (hcls : db.findClass cid = some cls)
    (hstatus : (cls.status != ClassStatus.OPEN
        && cls.status != ClassStatus.IN_PROGRESS) = false)
    (hfound : db.enrollments.find? (cancelPred s.student_id cid) = some e)
    (hwin : (decide (cls.start_date ≤ ctx.current_date)
        && decide (ctx.current_date - cls.start_date > 14)) = false)
    (hgrade : (e.grade.isSome || e.score.isSome) = false)
    (hperiod : (cls.semester != ctx.current_semester
        || cls.academic_year != ctx.current_academic_year) = false) :
    cancel_enrollment ctx db (some cid) (some s)
      = .ok { db with
              enrollments :=
                updateFirst (cancelPred s.student_id cid)
                  (fun e2 => { e2 with status := EnrollmentStatus.CANCELLED,
                                       cancellation_date := some ctx.now })
                  db.enrollments,
              classes :=
                updateFirst (fun c => c.class_id == cid)
                  (fun c =>
                    { c with current_enrollment := max 0 (c.current_enrollment - 1) })
                  db.classes } := by
  have hfz : falsyNat (some cid) = false := by simp [falsyNat, hcid]
  simp [cancel_enrollment, hfz, hcls, hstatus, hfound, hwin, hgrade, hperiod]

/-- C7: starting from a well-formed store with no enrollment row for the
pair, on an eligible open class (open, a free seat, a non-negative
counter, not yet started, not ended, in the current academic period,
matching departments), the sequence Enroll, Cancel, Enroll succeeds; the
pair ends with exactly one enrollment row, that row is Registered with
cancellation_date cleared, and the class counter has moved by exactly +1
overall. -/
theorem reenroll_after_cancel_net_effect
    (ctx : Ctx) (db : DB) (cid : Nat) (s : StudentRec) (cls : ClassRec)
    (course : CourseRec) (sdept : Nat)
    (hWF : WF db) (hcid : cid ≠ 0)
    (hcls : db.findClass cid = some cls)
    (hstat : cls.status = ClassStatus.OPEN)
    (hcap : cls.current_enrollment < cls.max_capacity)
    (hce0 : 0 ≤ cls.current_enrollment)
    (hstart : ¬ cls.start_date < ctx.current_date)
    (hend : ¬ cls.end_date < ctx.current_date)
    (hsem : cls.semester = ctx.current_semester)
    (hyear : cls.academic_year = ctx.current_academic_year)
    (hdept : s.department_id = some sdept)
    (hcourse : db.findCourse cls.course_id = some course)
    (hcdept : course.department_id = some sdept)
    (hpair : db.findEnrollmentPair s.student_id cid = none) :
    ∃ db1 db2 db3,
      enroll_course ctx db (some cid) (some s) = .ok db1
        ∧ cancel_enrollment ctx db1 (some cid) (some s) = .ok db2
        ∧ enroll_course ctx db2 (some cid) (some s) = .ok db3
        ∧ pairCount db3 s.student_id cid = 1
        ∧ (∀ e ∈ db3.enrollments, e.student_id = s.student_id → e.class_id = cid →
            e.status = EnrollmentStatus.REGISTERED ∧ e.cancellation_date = none)
        ∧ ∀ c ∈ db3.classes, c.class_id = cid →
            c.current_enrollment = cls.current_enrollment + 1 := by
  have htime : validate_class_timing_constraints ctx cls = none := by
    simp [validate_class_timing_constraints, hstart, hend, hsem, hyear]
  have hpcls : (fun c : ClassRec => c.class_id == cid) cls = true :=
    @List.find?_some ClassRec (fun c => c.class_id == cid) cls db.classes hcls
  have hprefix : ∀ e ∈ db.enrollments, pairPred s.student_id cid e = false := by
    intro e he
    simpa using List.find?_eq_none.mp hpair e he
  set row0 : EnrollmentRec := newEnrollmentRow ctx db s.student_id cid with hrow0
  set rowC : EnrollmentRec :=
    { row0 with status := EnrollmentStatus.CANCELLED,
                cancellation_date := some ctx.now } with hrowC
  set rowR : EnrollmentRec := reenrollRow ctx rowC with hrowR
  -- step 1
  have hA := enroll_course_ok_create_intro ctx db cid s cls course sdept hcid hcls hstat
    hcap htime hdept hcourse hcdept hpair
  set db1 : DB :=
    { db with classes := bumpClassCounter cid db.classes,
              enrollments := db.enrollments ++ [row0],
              next_enrollment_id := db.next_enrollment_id + 1 } with hdb1
  -- facts about db1
  have hcls1 : (bumpClassCounter cid db.classes).find? (fun c => c.class_id == cid)
      = some { cls with current_enrollment := cls.current_enrollment + 1 } :=
    find?_updateFirst_self _ _ _ _ hcls hpcls
  have hnocancel : db.enrollments.find? (cancelPred s.student_id cid) = none := by
    rw [List.find?_eq_none]
    intro e he
    have hpf := hprefix e he
    simp only [pairPred] at hpf
    simp only [cancelPred]
    cases ha : (e.student_id == s.student_id) with
    | false => simp [ha]
    | true =>
      rw [ha, Bool.true_and] at hpf
      simp [ha, hpf]
  have hrowcancel : cancelPred s.student_id cid row0 = true := by
    simp [cancelPred, hrow0, newEnrollmentRow]
  have hfound1 : (db.enrollments ++ [row0]).find? (cancelPred s.student_id cid)
      = some row0 := by
    rw [List.find?_append, hnocancel]
    simp [hrowcancel]
  have hwinB : (decide (cls.start_date ≤ ctx.current_date)
      && decide (ctx.current_date - cls.start_date > 14)) = false := by
    rcases le_or_lt cls.start_date ctx.current_date with h | h
    · have hd : ¬(ctx.current_date - cls.start_date > 14) := by omega
      simp [h, hd]
    · simp [not_le.mpr h]
  have hupdB : updateFirst (cancelPred s.student_id cid)
      (fun e2 => { e2 with status := EnrollmentStatus.CANCELLED,
                           cancellation_date := some ctx.now })
      (db.enrollments ++ [row0]) = db.enrollments ++ [rowC] := by
    rw [updateFirst_append_left _ _ _ _ hnocancel,
        updateFirst_cons_pos _ _ _ _ hrowcancel]
  -- step 2
  have hB := cancel_enrollment_ok_intro ctx db1 cid s
    { cls with current_enrollment := cls.current_enrollment + 1 } row0 hcid
    hcls1
    (by simp [hstat])
    hfound1
    hwinB
    (by simp [hrow0, newEnrollmentRow])
    (by simp [hsem, hyear])
  rw [show updateFirst (cancelPred s.student_id cid)
        (fun e2 => { e2 with status := EnrollmentStatus.CANCELLED,
                             cancellation_date := some ctx.now })
        db1.enrollments = db.enrollments ++ [rowC] from hupdB] at hB
  set db2 : DB :=
    { db1 with
      enrollments := db.enrollments ++ [rowC],
      classes :=
        updateFirst (fun c => c.class_id == cid)
          (fun c => { c with current_enrollment := max 0 (c.current_enrollment - 1) })
          db1.classes } with hdb2
  -- facts about db2
  have hcls2 : db2.classes.find? (fun c => c.class_id == cid)
      = some { cls with
               current_enrollment := max 0 (cls.current_enrollment + 1 - 1) } :=
    find?_updateFirst_self _ _ _ _ hcls1 hpcls
  have hnopair : db.enrollments.find? (pairPred s.student_id cid) = none := hpair
  have hpair2 : (db.enrollments ++ [rowC]).find? (pairPred s.student_id cid)
      = some rowC := by
    rw [List.find?_append, hnopair]
    simp [pairPred, hrowC, hrow0, newEnrollmentRow]
  have hupdC : updateFirst (pairPred s.student_id cid) (reenrollRow ctx)
      (db.enrollments ++ [rowC]) = db.enrollments ++ [rowR] := by
    rw [updateFirst_append_left _ _ _ _ hnopair,
        updateFirst_cons_pos _ _ _ _ (show pairPred s.student_id cid rowC = true by
          simp [pairPred, hrowC, hrow0, newEnrollmentRow])]
  -- step 3
  have hC := enroll_course_ok_reuse_intro ctx db2 cid s
    { cls with current_enrollment := max 0 (cls.current_enrollment + 1 - 1) }
    course sdept rowC hcid
    hcls2
    (by simp [hstat])
    (by simp only []; omega)
    (by simp [validate_class_timing_constraints, hstart, hend, hsem, hyear])
    hdept
    hcourse
    hcdept
    hpair2
    (by simp [hrowC, EnrollmentStatus.CANCELLED, EnrollmentStatus.REGISTERED])
    (by simp [hrowC, EnrollmentStatus.CANCELLED, EnrollmentStatus.COMPLETE,
              EnrollmentStatus.Failed])
  rw [show updateFirst (pairPred s.student_id cid) (reenrollRow ctx) db2.enrollments
        = db.enrollments ++ [rowR] from hupdC] at hC
  set db3 : DB :=
    { db2 with
      classes := bumpClassCounter cid db2.classes,
      enrollments := db.enrollments ++ [rowR] } with hdb3
  refine ⟨db1, db2, db3, hA, hB, hC, ?_, ?_, ?_⟩
  · rw [show pairCount db3 s.student_id cid
        = (db.enrollments ++ [rowR]).countP (pairPred s.student_id cid) from rfl]
    rw [List.countP_append, countP_eq_zero_of_find?_none _ _ hnopair]
    simp [pairPred, hrowR, reenrollRow, hrowC, hrow0, newEnrollmentRow]
  · intro e he hes hec
    rw [show db3.enrollments = db.enrollments ++ [rowR] from rfl] at he
    rcases List.mem_append.mp he with h1 | h1
    · exfalso
      have := hprefix e h1
      simp [pairPred, hes, hec] at this
    · rw [List.mem_singleton] at h1
      subst h1
      exact ⟨rfl, rfl⟩
  · intro c hc hcid2
    have hcls3 : db3.classes.find? (fun c => c.class_id == cid)
        = some { cls with
                 current_enrollment := max 0 (cls.current_enrollment + 1 - 1) + 1 } :=
      find?_updateFirst_self _ _ _ _ hcls2 hpcls
    have hcount2 : db2.classes.countP (fun c => c.class_id == cid) ≤ 1 := by
      rw [show db2.classes.countP (fun c => c.class_id == cid)
            = (updateFirst (fun c => c.class_id == cid)
                (fun c =>
                  { c with current_enrollment := max 0 (c.current_enrollment - 1) })
                (bumpClassCounter cid db.classes)).countP (fun c => c.class_id == cid)
          from rfl]
      rw [countP_updateFirst_eq _ _ _ _ _ hcls1 rfl, bumpClassCounter,
          countP_updateFirst_eq _ _ _ _ _ hcls rfl]
      exact hWF.1 cid
    have hc3 := eq_image_of_mem_updateFirst _ _ _ _ hcount2 hcls2 c
      (by rw [show db3.classes = bumpClassCounter cid db2.classes from rfl] at hc
          exact hc)
      (by simp [hcid2])
    rw [hc3]
    simp only []
    omega
/-- Stores reached by the witness sequence Enroll, Cancel, Enroll of
student 1 against class 1. -/
def db1W : DB := (enroll_course ctx0 dbE (some 1) (some stu1)).toOption.getD dbE

def db2W : DB := (cancel_enrollment ctx0 db1W (some 1) (some stu1)).toOption.getD db1W

def db3W : DB := (enroll_course ctx0 db2W (some 1) (some stu1)).toOption.getD db2W

/-- Witness for C7: the concrete Enroll, Cancel, Enroll run of student 1
against the empty class 1 ends with one pair row, a +1 counter, and a
Registered row with no cancellation date. -/
theorem reenroll_after_cancel_net_effect_witness :
    pairCount db3W 1 1 = 1
      ∧ (db3W.findClass 1).map (fun c => c.current_enrollment) = some 1
      ∧ db3W.enrollments.map (fun e => (e.status, e.cancellation_date))
          = [(EnrollmentStatus.REGISTERED, (none : Option Int))] := by
  obtain ⟨d1, d2, d3, h1, h2, h3, h4, h5, h6⟩ :=
    reenroll_after_cancel_net_effect ctx0 dbE 1 stu1 class1 course10 1
      (WF_of_WFb dbE (by decide)) (by decide) rfl rfl (by decide) (by decide)
      (by decide) (by decide) rfl rfl rfl rfl rfl rfl
  have e1 : db1W = d1 := by
    rw [show db1W
          = (enroll_course ctx0 dbE (some 1) (some stu1)).toOption.getD dbE from rfl, h1]
    rfl
  rw [← e1] at h2
  have e2 : db2W = d2 := by
    rw [show db2W
          = (cancel_enrollment ctx0 db1W (some 1) (some stu1)).toOption.getD db1W
        from rfl, h2]
    rfl
  rw [← e2] at h3
  have e3 : db3W = d3 := by
    rw [show db3W
          = (enroll_course ctx0 db2W (some 1) (some stu1)).toOption.getD db2W
        from rfl, h3]
    rfl
  refine ⟨by rw [e3]; exact h4, rfl, rfl⟩

/-- The overlap condition of the claim: some pair of schedules, one from
the target class and one from another class of the same teacher in the
same semester and academic year, shares the day of week and the time
intervals properly overlap (new.start < existing.end and
existing.start < new.end). -/
def SchedOverlapExists (db : DB) (cls : ClassRec) (tid : Nat) : Prop :=
  ∃ c ∈ db.classes,
    (c.teacher_id = some tid ∧ c.semester = cls.semester
        ∧ c.academic_year = cls.academic_year ∧ c.class_id ≠ cls.class_id)
      ∧ ∃ ns ∈ db.schedulesOf cls.class_id, ∃ es ∈ db.schedulesOf c.class_id,
          ns.day_of_week = es.day_of_week ∧ ns.start_time < es.end_time
            ∧ es.start_time < ns.end_time

/-- The scan of assign_teacher comes up empty exactly when no such
overlapping pair exists. -/
theorem findScheduleConflict_eq_none_iff (db : DB) (cls : ClassRec) (tid : Nat) :
    findScheduleConflict db cls tid = none ↔ ¬ SchedOverlapExists db cls tid := by
  rw [findScheduleConflict, List.findSome?_eq_none_iff]
  constructor
  · intro h hex
    obtain ⟨c, hcmem, ⟨ht, hsem, hyear, hne⟩, ns, hns, es, hes, hday, h1, h2⟩ := hex
    have hcfilter : c ∈ db.classes.filter (fun c =>
        c.teacher_id == some tid && c.semester == cls.semester
          && c.academic_year == cls.academic_year
          && c.class_id != cls.class_id) := by
      rw [List.mem_filter]
      refine ⟨hcmem, ?_⟩
      simp [ht, hsem, hyear, bne_iff_ne, hne]
    have hfc := h c hcfilter
    have hany : (db.schedulesOf cls.class_id).any
        (fun ns => (db.schedulesOf c.class_id).any (fun es => overlapsSched ns es))
        = true := by
      rw [List.any_eq_true]
      refine ⟨ns, hns, ?_⟩
      rw [List.any_eq_true]
      exact ⟨es, hes, by simp [overlapsSched, hday, h1, h2]⟩
    rw [if_pos hany] at hfc
    exact Option.noConfusion hfc
  · intro hno c hc
    rw [List.mem_filter] at hc
    cases hany : (db.schedulesOf cls.class_id).any
        (fun ns => (db.schedulesOf c.class_id).any (fun es => overlapsSched ns es)) with
    | false => simp [hany]
    | true =>
      exfalso
      rw [List.any_eq_true] at hany
      obtain ⟨ns, hns, hany2⟩ := hany
      rw [List.any_eq_true] at hany2
      obtain ⟨es, hes, hov⟩ := hany2
      simp only [overlapsSched, Bool.and_eq_true, beq_iff_eq, decide_eq_true_eq] at hov
      have hp := hc.2
      simp only [Bool.and_eq_true, beq_iff_eq, bne_iff_ne] at hp
      exact hno ⟨c, hc.1, ⟨hp.1.1.1, hp.1.1.2, hp.1.2, hp.2⟩,
        ns, hns, es, hes, hov.1.1, hov.1.2, hov.2⟩

/-- C8: with an existing class and teacher whose departments agree,
teacher assignment rejects with SCHEDULE_CONFLICT (naming a conflicting
class) precisely when some schedule pair of the claim's form overlaps
(same day, new.start < existing.end, new.end > existing.start - so exact
boundary touches are not conflicts), and otherwise commits the single
mutation class.teacher_id := teacher. -/
theorem assign_teacher_conflict_detection
    (db : DB) (cid tid : Nat) (cls : ClassRec) (t : TeacherRec)
    (course : CourseRec) (tdept : Nat)
    (hcid : cid ≠ 0) (htid : tid ≠ 0)
    (hcls : db.findClass cid = some cls)
    (ht : db.findTeacher tid = some t)
    (htdept : t.department_id = some tdept)
    (hcourse : db.findCourse cls.course_id = some course)
    (hcdept : course.department_id = some tdept) :
    (¬ SchedOverlapExists db cls tid →
        assign_teacher db (some cid) (some tid)
          = .ok { db with
                  classes :=
                    updateFirst (fun c => c.class_id == cid)
                      (fun c => { c with teacher_id := some tid }) db.classes })
      ∧ (SchedOverlapExists db cls tid →
          ∃ ccid, assign_teacher db (some cid) (some tid)
            = .error (.SCHEDULE_CONFLICT ccid)) := by
  have hfz : (falsyNat (some cid) || falsyNat (some tid)) = false := by
    simp [falsyNat, hcid, htid]
  constructor
  · intro hno
    have hnone : findScheduleConflict db cls tid = none :=
      (findScheduleConflict_eq_none_iff db cls tid).mpr hno
    simp [assign_teacher, hfz, hcls, ht, htdept, hcourse, hcdept, hnone]
  · intro hyes
    have hne : findScheduleConflict db cls tid ≠ none := fun h =>
      ((findScheduleConflict_eq_none_iff db cls tid).mp h) hyes
    obtain ⟨ccid, hc⟩ := Option.ne_none_iff_exists'.mp hne
    exact ⟨ccid, by simp [assign_teacher, hfz, hcls, ht, htdept, hcourse, hcdept, hc]⟩

/-- Teacher 7 (department 1) and the schedule fixtures for C8: class 1
has the block Monday 08:00-10:00 (480-600), and class 2 - already taught
by teacher 7 in the same semester and academic year - has Monday
10:00-12:00 (600-720).  In `dbS` the blocks touch exactly; in `dbS2` the
first block runs one minute longer (08:00-10:01). -/
def teacher7 : TeacherRec := { teacher_id := 7, department_id := some 1 }

def class2S : ClassRec := { class1 with class_id := 2, teacher_id := some 7 }

def schedA : ScheduleRec :=
  { schedule_id := 1, class_id := 1, day_of_week := "Thứ 2",
    start_time := 480, end_time := 600 }

def schedB : ScheduleRec :=
  { schedule_id := 2, class_id := 2, day_of_week := "Thứ 2",
    start_time := 600, end_time := 720 }

def dbS : DB :=
  { dbE with teachers := [teacher7], classes := [class1, class2S],
             schedules := [schedA, schedB] }

def dbS2 : DB := { dbS with schedules := [{ schedA with end_time := 601 }, schedB] }

/-- Witness for C8: the exactly-touching blocks are no conflict and the
assignment commits; extending the first block by one minute produces a
SCHEDULE_CONFLICT rejection. -/
theorem assign_teacher_conflict_detection_witness :
    ¬ SchedOverlapExists dbS class1 7
      ∧ assign_teacher dbS (some 1) (some 7)
          = .ok { dbS with
                  classes :=
                    updateFirst (fun c => c.class_id == 1)
                      (fun c => { c with teacher_id := some 7 }) dbS.classes }
      ∧ SchedOverlapExists dbS2 class1 7
      ∧ (assign_teacher dbS2 (some 1) (some 7)).toOption = none := by
  have H1 := assign_teacher_conflict_detection dbS 1 7 class1 teacher7 course10 1
    (by decide) (by decide) rfl rfl rfl rfl rfl
  have H2 := assign_teacher_conflict_detection dbS2 1 7 class1 teacher7 course10 1
    (by decide) (by decide) rfl rfl rfl rfl rfl
  have hno : ¬ SchedOverlapExists dbS class1 7 := by
    unfold SchedOverlapExists
    decide
  have hyes : SchedOverlapExists dbS2 class1 7 := by
    unfold SchedOverlapExists
    decide
  refine ⟨hno, H1.1 hno, hyes, ?_⟩
  obtain ⟨ccid, hc⟩ := H2.2 hyes
  rw [hc]
  rfl

end SchoolMS
